import Mathlib

/-!
Verification of the finding normalization and aggregation pipeline of
`semgrep_pretty_report` (file `src/semgrep_pretty_report/semgrep_report.py`).

The Python module is shallowly embedded: JSON records are modelled by
structures whose fields are `Option`-valued (absence of a key is `none`),
`dict.get(key, default)` becomes `Option.getD`, a bare `dict[key]` access
becomes a match that returns a `KeyErr` (Python's `KeyError`) on `none`,
Python's stable `list.sort(key=...)` becomes `List.mergeSort` with the
lexicographic comparison induced by the sort key, and `collections.Counter`
becomes an association list in first-insertion order (`countBy`), matching
CPython's insertion-ordered dicts.
-/

/-! ## Data model: `Finding` and `SemgrepReport` dataclasses -/

/-- Represents a single semgrep finding (dataclass `Finding`, lines 13-31). -/
structure Finding where
  check_id : String
  path : String
  start_line : Int
  end_line : Int
  severity : String
  confidence : String
  message : String
  category : String
  technology : List String := []
  cwe : List String := []
  owasp : List String := []
  references : List String := []
  shortlink : Option String := none
  lines : Option String := none
  fingerprint : Option String := none
deriving DecidableEq

/-- Severity order for sorting (`Finding.severity_order`, lines 33-37):
`{"ERROR": 0, "WARNING": 1, "INFO": 2}.get(self.severity, 3)`. -/
def Finding.severity_order (f : Finding) : Nat :=
  if f.severity = "ERROR" then 0
  else if f.severity = "WARNING" then 1
  else if f.severity = "INFO" then 2
  else 3

/-- Confidence order for sorting (`Finding.confidence_order`, lines 39-43):
`{"HIGH": 0, "MEDIUM": 1, "LOW": 2}.get(self.confidence, 3)`. -/
def Finding.confidence_order (f : Finding) : Nat :=
  if f.confidence = "HIGH" then 0
  else if f.confidence = "MEDIUM" then 1
  else if f.confidence = "LOW" then 2
  else 3

/-- One raw entry of the input's `errors` array.  The code passes these
through unmodified and only ever reads the keys `type`, `path`, `message`
(permissively), so the model keeps exactly those, each optional. -/
structure RawError where
  type : Option String := none
  path : Option String := none
  message : Option String := none
deriving DecidableEq

/-- The `time` object of the input is opaque to the code (`data.get("time", {})`
is stored and never interpreted); it is modelled as a generic string map. -/
abbrev ScanTime := List (String × String)

/-- Represents a complete semgrep report (dataclass `SemgrepReport`, lines 46-55). -/
structure SemgrepReport where
  version : String
  findings : List Finding := []
  errors : List RawError := []
  scanned_paths : List String := []
  total_files_scanned : Nat := 0
  scan_time : Option ScanTime := none
deriving DecidableEq

/-! ## Counter model

`collections.Counter(iterable)` builds an insertion-ordered dict mapping each
distinct element to its multiplicity; iterating it yields keys in first-seen
order.  `bump` is one dict update `counter[s] += 1` (insert at the end when
the key is new), `countBy` is the whole construction, and `lookupCount` is a
read `counter[v]` (Counter returns 0 for a missing key). -/

/-- One `Counter` increment: add one to the entry for `s`, appending a fresh
entry `(s, 1)` when `s` is not yet a key. -/
def bump : List (String × Nat) → String → List (String × Nat)
  | [], s => [(s, 1)]
  | (t, n) :: rest, s =>
    if t = s then (t, n + 1) :: rest else (t, n) :: bump rest s

/-- `Counter(key(f) for f in fs)` as an insertion-ordered association list. -/
def countBy (key : Finding → String) (fs : List Finding) : List (String × Nat) :=
  fs.foldl (fun acc f => bump acc (key f)) []

/-- Read a count out of a Counter: 0 when the key is absent. -/
def lookupCount (counts : List (String × Nat)) (v : String) : Nat :=
  match counts with
  | [] => 0
  | (t, n) :: rest => if t = v then n else lookupCount rest v

/-- Comparison used by `Counter.most_common`: sort the `(key, count)` items by
count descending; CPython's `nlargest`/`sorted(..., reverse=True)` is stable,
so ties keep first-insertion order, which `List.mergeSort` with this total
comparison reproduces. -/
def countGE (a b : String × Nat) : Bool :=
  decide (b.2 ≤ a.2)

/-- `Counter.most_common(n)`: the n entries with the largest counts, by
descending count, ties in first-seen order. -/
def most_common (n : Nat) (counts : List (String × Nat)) : List (String × Nat) :=
  (counts.mergeSort countGE).take n

/-! ## `SemgrepReport.summary_stats` (lines 57-80) -/

/-- The dictionary returned by `SemgrepReport.summary_stats`. -/
structure Stats where
  total_findings : Nat
  total_errors : Nat
  files_scanned : Nat
  files_affected : Nat
  severity_breakdown : List (String × Nat)
  confidence_breakdown : List (String × Nat)
  category_breakdown : List (String × Nat)
  top_issues : List (String × Nat)
deriving DecidableEq

/-- Generate summary statistics (`SemgrepReport.summary_stats`, lines 57-80).
`files_affected` is `len(set(f.path for f in self.findings))`. -/
def SemgrepReport.summary_stats (r : SemgrepReport) : Stats :=
  let severity_counts := countBy (fun f => f.severity) r.findings
  let confidence_counts := countBy (fun f => f.confidence) r.findings
  let category_counts := countBy (fun f => f.category) r.findings
  let files_affected := ((r.findings.map (fun f => f.path)).toFinset).card
  let check_id_counts := countBy (fun f => f.check_id) r.findings
  let top_issues := most_common 5 check_id_counts
  { total_findings := r.findings.length
    total_errors := r.errors.length
    files_scanned := r.total_files_scanned
    files_affected := files_affected
    severity_breakdown := severity_counts
    confidence_breakdown := confidence_counts
    category_breakdown := category_counts
    top_issues := top_issues }

/-- Evaluating the `summary_stats` property on a report, with the report
object threaded through explicitly so that the absence of mutation is a
statement rather than a convention: the Python property only reads
`self.findings`, `self.errors` and `self.total_files_scanned`, so its
state-passing translation returns the report unchanged. -/
def summary_stats_run (r : SemgrepReport) : Stats × SemgrepReport :=
  let severity_counts := countBy (fun f => f.severity) r.findings
  let confidence_counts := countBy (fun f => f.confidence) r.findings
  let category_counts := countBy (fun f => f.category) r.findings
  let files_affected := ((r.findings.map (fun f => f.path)).toFinset).card
  let check_id_counts := countBy (fun f => f.check_id) r.findings
  let top_issues := most_common 5 check_id_counts
  ({ total_findings := r.findings.length
     total_errors := r.errors.length
     files_scanned := r.total_files_scanned
     files_affected := files_affected
     severity_breakdown := severity_counts
     confidence_breakdown := confidence_counts
     category_breakdown := category_counts
     top_issues := top_issues }, r)

/-! ## Raw input document model (the parsed JSON handed to `_parse_semgrep_data`) -/

/-- A `start`/`end` location object: `{"line": int}`, the key possibly absent. -/
structure RawLoc where
  line : Option Int := none
deriving DecidableEq

/-- The `extra.metadata` object of one raw result; every key optional. -/
structure RawMetadata where
  confidence : Option String := none
  category : Option String := none
  technology : Option (List String) := none
  cwe : Option (List String) := none
  owasp : Option (List String) := none
  references : Option (List String) := none
  shortlink : Option String := none
deriving DecidableEq

/-- The `extra` object of one raw result; every key optional. -/
structure RawExtra where
  message : Option String := none
  severity : Option String := none
  lines : Option String := none
  fingerprint : Option String := none
  metadata : Option RawMetadata := none
deriving DecidableEq

/-- One raw entry of the input's `results` array.  `end_` models the JSON key
`"end"` (a Lean keyword). -/
structure RawResult where
  check_id : Option String := none
  path : Option String := none
  start : Option RawLoc := none
  end_ : Option RawLoc := none
  extra : Option RawExtra := none
deriving DecidableEq

/-- The `paths` object of the input document. -/
structure RawPaths where
  scanned : Option (List String) := none
deriving DecidableEq

/-- The whole parsed JSON input document (fields beyond these are ignored by
the code). -/
structure RawData where
  version : Option String := none
  results : Option (List RawResult) := none
  errors : Option (List RawError) := none
  paths : Option RawPaths := none
  time : Option ScanTime := none
deriving DecidableEq

/-- Python's `KeyError(key)`: the only failure `_parse_finding` can raise.
Its payload is the missing key's name and nothing else. -/
inductive KeyErr where
  | missing (key : String)
deriving DecidableEq

/-! ## `SemgrepReportGenerator._parse_finding` (lines 127-148)

Required keys are read with bare indexing (`result["check_id"]`,
`result["start"]["line"]`, `extra["message"]`), raising `KeyError(key)` when
absent; all other keys are read with `.get` and a default.  The matches below
follow the Python argument evaluation order, so the error produced is the one
of the first missing required key. -/

/-- Parse a single semgrep result into a `Finding` object. -/
def _parse_finding (result : RawResult) : Except KeyErr Finding :=
  let extra := result.extra.getD {}
  let metadata := extra.metadata.getD {}
  match result.check_id with
  | none => .error (.missing "check_id")
  | some check_id =>
  match result.path with
  | none => .error (.missing "path")
  | some path =>
  match result.start with
  | none => .error (.missing "start")
  | some start =>
  match start.line with
  | none => .error (.missing "line")
  | some start_line =>
  match result.end_ with
  | none => .error (.missing "end")
  | some endLoc =>
  match endLoc.line with
  | none => .error (.missing "line")
  | some end_line =>
  match extra.message with
  | none => .error (.missing "message")
  | some message =>
    .ok { check_id := check_id
          path := path
          start_line := start_line
          end_line := end_line
          severity := extra.severity.getD "UNKNOWN"
          confidence := metadata.confidence.getD "UNKNOWN"
          message := message
          category := metadata.category.getD "unknown"
          technology := metadata.technology.getD []
          cwe := metadata.cwe.getD []
          owasp := metadata.owasp.getD []
          references := metadata.references.getD []
          shortlink := metadata.shortlink
          lines := extra.lines
          fingerprint := extra.fingerprint }

/-- The findings loop of `_parse_semgrep_data` (lines 118-120): parse each
result in order, appending; the first `KeyError` aborts the whole parse. -/
def parseFindings : List RawResult → Except KeyErr (List Finding)
  | [] => .ok []
  | r :: rs =>
    match _parse_finding r with
    | .error e => .error e
    | .ok f =>
      match parseFindings rs with
      | .error e => .error e
      | .ok fs => .ok (f :: fs)

/-! ## The findings sort (line 123)

`report.findings.sort(key=lambda f: (f.severity_order, f.path, f.start_line))`:
a stable sort by the lexicographic order on the key tuples, components
compared with `<` on `int` and on `str` (code point order, which is Lean's
`String` order). -/

/-- The sort key tuple of a finding. -/
def findingKey (f : Finding) : Nat × String × Int :=
  (f.severity_order, f.path, f.start_line)

/-- Python's `<=` on the key tuples `(severity_order, path, start_line)`,
written as the usual lexicographic comparison chain. -/
def findingLE (a b : Finding) : Bool :=
  if a.severity_order < b.severity_order then true
  else if b.severity_order < a.severity_order then false
  else if a.path < b.path then true
  else if b.path < a.path then false
  else decide (a.start_line ≤ b.start_line)

/-! ## `SemgrepReportGenerator._parse_semgrep_data` (lines 107-125) -/

/-- Parse semgrep JSON data into the report structure. -/
def _parse_semgrep_data (data : RawData) : Except KeyErr SemgrepReport :=
  match parseFindings (data.results.getD []) with
  | .error e => .error e
  | .ok findings =>
    .ok { version := data.version.getD "unknown"
          errors := data.errors.getD []
          scanned_paths := (data.paths.getD {}).scanned.getD []
          total_files_scanned := ((data.paths.getD {}).scanned.getD []).length
          scan_time := some (data.time.getD [])
          findings := findings.mergeSort findingLE }

/-! ## The serialized payloads of `_generate_html` (lines 150-177)

`findings_json` is `json.dumps` of a list of dicts copying the fifteen
finding fields in order; `errors_json` is `json.dumps(report.errors)`.
`json.dumps` is injective on this data, so the payloads are modelled at the
structured level. -/

/-- One element of the `findings_json` payload (the dict literal of
lines 158-174). -/
structure FindingJson where
  check_id : String
  path : String
  start_line : Int
  end_line : Int
  severity : String
  confidence : String
  message : String
  category : String
  technology : List String
  cwe : List String
  owasp : List String
  references : List String
  shortlink : Option String
  lines : Option String
  fingerprint : Option String
deriving DecidableEq

/-- The dict built for one finding in the `findings_json` list comprehension. -/
def finding_to_json (f : Finding) : FindingJson :=
  { check_id := f.check_id
    path := f.path
    start_line := f.start_line
    end_line := f.end_line
    severity := f.severity
    confidence := f.confidence
    message := f.message
    category := f.category
    technology := f.technology
    cwe := f.cwe
    owasp := f.owasp
    references := f.references
    shortlink := f.shortlink
    lines := f.lines
    fingerprint := f.fingerprint }

/-- The data handed to the template (the `template_data` dict of lines
155-177, minus the wall-clock timestamp). -/
structure TemplateData where
  stats : Stats
  findings_json : List FindingJson
  errors_json : List RawError
deriving DecidableEq

/-- Build the template data from a parsed report (`_generate_html`'s data
preparation, lines 150-177). -/
def template_data (report : SemgrepReport) : TemplateData :=
  { stats := report.summary_stats
    findings_json := report.findings.map finding_to_json
    errors_json := report.errors }

/-- The report generation pipeline (`generate_report`, lines 89-103), at the
data level: parse, then build the template payload.  The artifact is written
only after both steps succeed, so an error here means no output is produced. -/
def generate_report (data : RawData) : Except KeyErr TemplateData :=
  match _parse_semgrep_data data with
  | .error e => .error e
  | .ok report => .ok (template_data report)

/-! ## Auxiliary observations used to state the claims -/

/-- Whether `_parse_finding` raises on this record, i.e. whether the record is
missing a required field. -/
def resultFails (r : RawResult) : Bool :=
  match _parse_finding r with
  | .ok _ => false
  | .error _ => true

/-- Index of the first offending record of a document's `results` sequence. -/
def firstBadIndex (data : RawData) : Option Nat :=
  (data.results.getD []).findIdx? (fun r => resultFails r)

/-- The required-field tuple of a raw result, when all required fields are
present. -/
def requiredOfRaw (r : RawResult) : Option (String × String × Int × Int × String) := do
  let c ← r.check_id
  let p ← r.path
  let s ← r.start
  let sl ← s.line
  let e ← r.end_
  let el ← e.line
  let m ← (r.extra.getD {}).message
  return (c, p, sl, el, m)

/-- The required-field tuple of a serialized finding. -/
def requiredOfJson (j : FindingJson) : String × String × Int × Int × String :=
  (j.check_id, j.path, j.start_line, j.end_line, j.message)

/-- Modelled from the spec: the list of a sequence's distinct values in
first-seen order (what "iteration order of the breakdown keys is first-seen
order" asks of the Counter model). -/
def firstSeen (l : List String) : List String :=
  l.foldl (fun acc s => if s ∈ acc then acc else acc ++ [s]) []

/-! ## Concrete documents used by the examples and witnesses -/

/-- A well-formed raw result with the given severity, at a fixed path/line. -/
def exampleResult (sev : String) : RawResult :=
  { check_id := some "rule"
    path := some "a.py"
    start := some { line := some 1 }
    end_ := some { line := some 2 }
    extra := some { message := some "msg", severity := some sev } }

/-- The spec's sort example: three results with severities INFO, ERROR,
WARNING at the same path and line. -/
def exampleDoc : RawData :=
  { results := some [exampleResult "INFO", exampleResult "ERROR", exampleResult "WARNING"] }

/-- The finding produced from `exampleResult sev`. -/
def exampleFinding (sev : String) : Finding :=
  { check_id := "rule"
    path := "a.py"
    start_line := 1
    end_line := 2
    severity := sev
    confidence := "UNKNOWN"
    message := "msg"
    category := "unknown" }

/-- The report parsed from `exampleDoc`. -/
def exampleReport : SemgrepReport :=
  { version := "unknown"
    findings := [exampleFinding "ERROR", exampleFinding "WARNING", exampleFinding "INFO"]
    errors := []
    scanned_paths := []
    total_files_scanned := 0
    scan_time := some [] }

/-- A raw result with every key absent: the first required read fails with
`KeyError('check_id')`. -/
def badResult : RawResult := {}

/-- A document whose only (offending) record is at position 0. -/
def docBad0 : RawData := { results := some [badResult] }

/-- A document whose offending record is at position 1. -/
def docBad1 : RawData := { results := some [exampleResult "ERROR", badResult] }

/-! ## Helper lemmas about the sort comparison -/

/-- Characterization of `findingLE` as the lexicographic order on key tuples. -/
theorem findingLE_iff (a b : Finding) :
    findingLE a b = true ↔
      (a.severity_order < b.severity_order
        ∨ (a.severity_order = b.severity_order
            ∧ (a.path < b.path
                ∨ (a.path = b.path ∧ a.start_line ≤ b.start_line)))) := by
  unfold findingLE
  split_ifs with h1 h2 h3 h4
  · simp [h1]
  · simp only [false_iff]
    rintro (h | ⟨h, -⟩) <;> omega
  · have hso : a.severity_order = b.severity_order := by omega
    simp [hso, h3]
  · have hso : a.severity_order = b.severity_order := by omega
    simp only [decide_eq_true_eq, false_iff]
    rintro (h | ⟨-, (h | ⟨h, -⟩)⟩)
    · omega
    · exact absurd h4 (lt_asymm h)
    · exact absurd h4 (by simp [h])
  · have hso : a.severity_order = b.severity_order := by omega
    have hp : a.path = b.path := le_antisymm (not_lt.mp h4) (not_lt.mp h3)
    simp [hso, hp, h3]

/-- The comparison is total, as `List.sorted_mergeSort` requires. -/
theorem findingLE_total (a b : Finding) : findingLE a b || findingLE b a := by
  simp only [Bool.or_eq_true, findingLE_iff]
  rcases Nat.lt_trichotomy a.severity_order b.severity_order with h | h | h
  · exact Or.inl (Or.inl h)
  · rcases lt_trichotomy a.path b.path with hp | hp | hp
    · exact Or.inl (Or.inr ⟨h, Or.inl hp⟩)
    · rcases le_total a.start_line b.start_line with hl | hl
      · exact Or.inl (Or.inr ⟨h, Or.inr ⟨hp, hl⟩⟩)
      · exact Or.inr (Or.inr ⟨h.symm, Or.inr ⟨hp.symm, hl⟩⟩)
    · exact Or.inr (Or.inr ⟨h.symm, Or.inl hp⟩)
  · exact Or.inr (Or.inl h)

/-- The comparison is transitive, as `List.sorted_mergeSort` requires. -/
theorem findingLE_trans (a b c : Finding)
    (hab : findingLE a b) (hbc : findingLE b c) : findingLE a c := by
  rw [findingLE_iff] at hab hbc ⊢
  rcases hab with h1 | ⟨h1, h1'⟩
  · rcases hbc with h2 | ⟨h2, -⟩
    · exact Or.inl (h1.trans h2)
    · exact Or.inl (h2 ▸ h1)
  · rcases hbc with h2 | ⟨h2, h2'⟩
    · exact Or.inl (h1 ▸ h2)
    · refine Or.inr ⟨h1.trans h2, ?_⟩
      rcases h1' with hp1 | ⟨hp1, hl1⟩
      · rcases h2' with hp2 | ⟨hp2, -⟩
        · exact Or.inl (hp1.trans hp2)
        · exact Or.inl (hp2 ▸ hp1)
      · rcases h2' with hp2 | ⟨hp2, hl2⟩
        · exact Or.inl (hp1 ▸ hp2)
        · exact Or.inr ⟨hp1.trans hp2, hl1.trans hl2⟩

/-- Findings with identical sort keys compare `≤` in both directions. -/
theorem findingLE_of_key_eq {a b : Finding} (h : findingKey a = findingKey b) :
    findingLE a b = true := by
  have h1 : a.severity_order = b.severity_order := congrArg (fun p => p.1) h
  have h2 : a.path = b.path := congrArg (fun p => p.2.1) h
  have h3 : a.start_line = b.start_line := congrArg (fun p => p.2.2) h
  rw [findingLE_iff]
  exact Or.inr ⟨h1, Or.inr ⟨h2, le_of_eq h3⟩⟩


/-! ## Helper lemmas about the parse loop -/

/-- A successful parse relates inputs and findings pointwise in order. -/
theorem parseFindings_ok_forall₂ {rs : List RawResult} {fs : List Finding}
    (h : parseFindings rs = .ok fs) :
    List.Forall₂ (fun r f => _parse_finding r = .ok f) rs fs := by
  induction rs generalizing fs with
  | nil =>
    simp only [parseFindings] at h
    cases h
    exact .nil
  | cons r rs ih =>
    simp only [parseFindings] at h
    cases hr : _parse_finding r with
    | error e => rw [hr] at h; cases h
    | ok f =>
      rw [hr] at h
      cases hrs : parseFindings rs with
      | error e => rw [hrs] at h; cases h
      | ok fs' =>
        rw [hrs] at h
        cases h
        exact .cons hr (ih hrs)

/-- A successful parse preserves the element count. -/
theorem parseFindings_ok_length {rs : List RawResult} {fs : List Finding}
    (h : parseFindings rs = .ok fs) : fs.length = rs.length :=
  (parseFindings_ok_forall₂ h).length_eq.symm

/-- If some record of the list fails to parse, the whole loop fails. -/
theorem parseFindings_error_of_fails {rs : List RawResult}
    (h : ∃ r ∈ rs, resultFails r = true) : ∃ e, parseFindings rs = .error e := by
  induction rs with
  | nil => simp at h
  | cons r rs ih =>
    by_cases hr : resultFails r = true
    · unfold resultFails at hr
      cases hpr : _parse_finding r with
      | error e => exact ⟨e, by simp [parseFindings, hpr]⟩
      | ok f => rw [hpr] at hr; cases hr
    · have : ∃ r' ∈ rs, resultFails r' = true := by
        rcases h with ⟨r', hm, hf⟩
        rcases List.mem_cons.mp hm with rfl | hm'
        · exact absurd hf hr
        · exact ⟨r', hm', hf⟩
      rcases ih this with ⟨e, he⟩
      cases hpr : _parse_finding r with
      | error e' => exact ⟨e', by simp [parseFindings, hpr]⟩
      | ok f => exact ⟨e, by simp [parseFindings, hpr, he]⟩

/-- A parse-loop error comes from the parse failure of some record. -/
theorem parseFindings_error_mem {rs : List RawResult} {e : KeyErr}
    (h : parseFindings rs = .error e) : ∃ r ∈ rs, _parse_finding r = .error e := by
  induction rs with
  | nil => simp [parseFindings] at h
  | cons r rs ih =>
    simp only [parseFindings] at h
    cases hr : _parse_finding r with
    | error e' =>
      rw [hr] at h
      cases h
      exact ⟨r, List.mem_cons_self r rs, hr⟩
    | ok f =>
      rw [hr] at h
      cases hrs : parseFindings rs with
      | error e' =>
        rw [hrs] at h
        cases h
        rcases ih hrs with ⟨r', hm, hp⟩
        exact ⟨r', List.mem_cons_of_mem r hm, hp⟩
      | ok fs' => rw [hrs] at h; cases h

/-- The only keys `_parse_finding` can report missing are the required ones. -/
theorem parse_finding_error_key {r : RawResult} {k : String}
    (h : _parse_finding r = .error (.missing k)) :
    k ∈ (["check_id", "path", "start", "line", "end", "message"] : List String) := by
  obtain ⟨cid, pth, st, en, ex⟩ := r
  unfold _parse_finding at h
  rcases cid with _ | c
  · cases h; simp
  rcases pth with _ | p
  · cases h; simp
  rcases st with _ | ⟨sl⟩
  · cases h; simp
  rcases sl with _ | sl
  · cases h; simp
  rcases en with _ | ⟨el⟩
  · cases h; simp
  rcases el with _ | el
  · cases h; simp
  rcases ex with _ | ⟨msg, sev, lns, fp, md⟩
  · cases h; simp
  rcases msg with _ | m
  · cases h; simp
  cases h

/-- A successful `_parse_finding` reads the required fields verbatim. -/
theorem parse_finding_ok_required {r : RawResult} {f : Finding}
    (h : _parse_finding r = .ok f) :
    requiredOfRaw r = some (f.check_id, f.path, f.start_line, f.end_line, f.message) := by
  obtain ⟨cid, pth, st, en, ex⟩ := r
  unfold _parse_finding at h
  rcases cid with _ | c
  · cases h
  rcases pth with _ | p
  · cases h
  rcases st with _ | ⟨sl⟩
  · cases h
  rcases sl with _ | sl
  · cases h
  rcases en with _ | ⟨el⟩
  · cases h
  rcases el with _ | el
  · cases h
  rcases ex with _ | ⟨msg, sev, lns, fp, md⟩
  · cases h
  rcases msg with _ | m
  · cases h
  cases h
  rfl

/-! ## Helper lemmas about the Counter model -/

/-- One increment raises the incremented key's count by one. -/
theorem lookupCount_bump_self (acc : List (String × Nat)) (s : String) :
    lookupCount (bump acc s) s = lookupCount acc s + 1 := by
  induction acc with
  | nil => simp [bump, lookupCount]
  | cons p rest ih =>
    obtain ⟨t, n⟩ := p
    by_cases h : t = s <;> simp [bump, lookupCount, h, ih]

/-- One increment leaves every other key's count unchanged. -/
theorem lookupCount_bump_ne (acc : List (String × Nat)) {s v : String} (h : v ≠ s) :
    lookupCount (bump acc s) v = lookupCount acc v := by
  have hsv : s ≠ v := Ne.symm h
  induction acc with
  | nil => simp [bump, lookupCount, hsv]
  | cons p rest ih =>
    obtain ⟨t, n⟩ := p
    by_cases ht : t = s
    · subst ht
      simp [bump, lookupCount, hsv]
    · by_cases hv : t = v
      · subst hv
        simp [bump, lookupCount, ht, hsv, h]
      · simp [bump, lookupCount, ht, hv, ih]

/-- One increment appends the key at the end exactly when it is new. -/
theorem keys_bump (acc : List (String × Nat)) (s : String) :
    (bump acc s).map Prod.fst
      = if s ∈ acc.map Prod.fst then acc.map Prod.fst else acc.map Prod.fst ++ [s] := by
  induction acc with
  | nil => simp [bump]
  | cons p rest ih =>
    obtain ⟨t, n⟩ := p
    by_cases h : t = s
    · simp [bump, h]
    · simp only [bump, if_neg h, List.map_cons, ih]
      by_cases hm : s ∈ rest.map Prod.fst <;>
        simp [hm, List.mem_cons, Ne.symm h]

/-- One increment raises the total count by one. -/
theorem sum_bump (acc : List (String × Nat)) (s : String) :
    ((bump acc s).map Prod.snd).sum = ((acc.map Prod.snd).sum) + 1 := by
  induction acc with
  | nil => simp [bump]
  | cons p rest ih =>
    obtain ⟨t, n⟩ := p
    by_cases h : t = s <;> simp [bump, h, ih] <;> omega

/-- Generalized count invariant of the Counter construction loop. -/
theorem countBy_loop_lookup (key : Finding → String) (fs : List Finding)
    (acc : List (String × Nat)) (v : String) :
    lookupCount (fs.foldl (fun a f => bump a (key f)) acc) v
      = lookupCount acc v + (fs.filter (fun f => key f = v)).length := by
  induction fs generalizing acc with
  | nil => simp
  | cons f fs ih =>
    simp only [List.foldl_cons, ih]
    by_cases h : key f = v
    · rw [h, lookupCount_bump_self]
      simp [h]
      omega
    · rw [lookupCount_bump_ne acc (fun e => h e.symm)]
      simp [h]

/-- The Counter maps each value to the number of findings carrying it. -/
theorem countBy_lookup (key : Finding → String) (fs : List Finding) (v : String) :
    lookupCount (countBy key fs) v = (fs.filter (fun f => key f = v)).length := by
  have := countBy_loop_lookup key fs [] v
  simpa [countBy, lookupCount] using this

/-- Generalized key-order invariant of the Counter construction loop. -/
theorem countBy_loop_keys (key : Finding → String) (fs : List Finding)
    (acc : List (String × Nat)) :
    (fs.foldl (fun a f => bump a (key f)) acc).map Prod.fst
      = (fs.map key).foldl (fun ks s => if s ∈ ks then ks else ks ++ [s])
          (acc.map Prod.fst) := by
  induction fs generalizing acc with
  | nil => simp
  | cons f fs ih =>
    simp only [List.foldl_cons, List.map_cons, ih, keys_bump]

/-- The Counter's keys are the observed values in first-seen order. -/
theorem countBy_keys (key : Finding → String) (fs : List Finding) :
    (countBy key fs).map Prod.fst = firstSeen (fs.map key) := by
  simpa [countBy, firstSeen] using countBy_loop_keys key fs []

/-- Generalized total-count invariant of the Counter construction loop. -/
theorem countBy_loop_sum (key : Finding → String) (fs : List Finding)
    (acc : List (String × Nat)) :
    ((fs.foldl (fun a f => bump a (key f)) acc).map Prod.snd).sum
      = ((acc.map Prod.snd).sum) + fs.length := by
  induction fs generalizing acc with
  | nil => simp
  | cons f fs ih =>
    simp only [List.foldl_cons, ih, sum_bump, List.length_cons]
    omega

/-- The Counter's counts sum to the number of findings. -/
theorem countBy_sum (key : Finding → String) (fs : List Finding) :
    ((countBy key fs).map Prod.snd).sum = fs.length := by
  simpa [countBy] using countBy_loop_sum key fs []

/-- The first-seen accumulation loop preserves key distinctness. -/
theorem firstSeen_loop_nodup (l : List String) (acc : List String) (h : acc.Nodup) :
    (l.foldl (fun ks s => if s ∈ ks then ks else ks ++ [s]) acc).Nodup := by
  induction l generalizing acc with
  | nil => simpa
  | cons s l ih =>
    simp only [List.foldl_cons]
    by_cases hm : s ∈ acc
    · rw [if_pos hm]
      exact ih acc h
    · rw [if_neg hm]
      refine ih (acc ++ [s]) ?_
      simp [List.nodup_append, h, hm]

/-- The Counter's keys are distinct. -/
theorem countBy_keys_nodup (key : Finding → String) (fs : List Finding) :
    ((countBy key fs).map Prod.fst).Nodup := by
  rw [countBy_keys]
  exact firstSeen_loop_nodup (fs.map key) [] List.nodup_nil

/-- The Counter's entries are distinct. -/
theorem countBy_nodup (key : Finding → String) (fs : List Finding) :
    (countBy key fs).Nodup :=
  (countBy_keys_nodup key fs).of_map Prod.fst

/-- In an association list with distinct keys, membership determines lookup. -/
theorem lookupCount_of_mem {counts : List (String × Nat)} {v : String} {n : Nat}
    (hd : (counts.map Prod.fst).Nodup) (h : (v, n) ∈ counts) :
    lookupCount counts v = n := by
  induction counts with
  | nil => cases h
  | cons p rest ih =>
    obtain ⟨t, m⟩ := p
    simp only [List.map_cons, List.nodup_cons] at hd
    rcases List.mem_cons.mp h with h1 | h1
    · cases h1
      simp [lookupCount]
    · have : t ≠ v := by
        rintro rfl
        exact hd.1 (List.mem_map.mpr ⟨(t, n), h1, rfl⟩)
      simp [lookupCount, this, ih hd.2 h1]

/-! ## Helper lemmas about the whole-document parse and the top-issues ranking -/

/-- Shape of a successful `_parse_semgrep_data`: the findings are the parsed
results, sorted; the metadata fields are read with their defaults. -/
theorem parse_semgrep_ok_elim {data : RawData} {report : SemgrepReport}
    (h : _parse_semgrep_data data = .ok report) :
    ∃ fs0, parseFindings (data.results.getD []) = .ok fs0
      ∧ report = { version := data.version.getD "unknown"
                   errors := data.errors.getD []
                   scanned_paths := (data.paths.getD {}).scanned.getD []
                   total_files_scanned := ((data.paths.getD {}).scanned.getD []).length
                   scan_time := some (data.time.getD [])
                   findings := fs0.mergeSort findingLE } := by
  unfold _parse_semgrep_data at h
  cases hp : parseFindings (data.results.getD []) with
  | error e => rw [hp] at h; cases h
  | ok fs0 =>
    rw [hp] at h
    cases h
    exact ⟨fs0, rfl, rfl⟩

/-- The descending-count comparison is transitive. -/
theorem countGE_trans (a b c : String × Nat) (hab : countGE a b) (hbc : countGE b c) :
    countGE a c := by
  simp only [countGE, decide_eq_true_eq] at *
  omega

/-- The descending-count comparison is total. -/
theorem countGE_total (a b : String × Nat) : countGE a b || countGE b a := by
  simp only [countGE, Bool.or_eq_true, decide_eq_true_eq]
  omega

/-- In a pairwise-related list, every taken element relates to every dropped one. -/
theorem pairwise_take_drop {α : Type} {l : List α} {R : α → α → Prop}
    (h : l.Pairwise R) (n : Nat) {p q : α} (hp : p ∈ l.take n) (hq : q ∈ l.drop n) :
    R p q := by
  rw [← List.take_append_drop n l] at h
  exact (List.pairwise_append.mp h).2.2 p hp q hq

/-- A two-element sublist of a duplicate-free list survives `take` whenever its
later element is among the taken ones. -/
theorem pair_sublist_take {α : Type} {a b : α} {l : List α} {n : Nat}
    (hs : [a, b].Sublist l) (hd : l.Nodup) (hb : b ∈ l.take n) :
    [a, b].Sublist (l.take n) := by
  induction l generalizing n with
  | nil => simp at hb
  | cons x l ih =>
    cases n with
    | zero => simp at hb
    | succ m =>
      simp only [List.take_succ_cons] at hb ⊢
      cases hs with
      | cons _ hs' =>
        have hbl : b ∈ l := hs'.subset (by simp)
        have hbx : b ≠ x := by
          rintro rfl
          exact (List.nodup_cons.mp hd).1 hbl
        have hb' : b ∈ l.take m := by
          rcases List.mem_cons.mp hb with h1 | h1
          · exact absurd h1 hbx
          · exact h1
        exact (ih hs' (List.nodup_cons.mp hd).2 hb').cons x
      | cons₂ _ hs' =>
        have hbl : b ∈ l := hs'.subset (by simp)
        have hba : b ≠ a := by
          rintro rfl
          exact (List.nodup_cons.mp hd).1 hbl
        have hb' : b ∈ l.take m := by
          rcases List.mem_cons.mp hb with h1 | h1
          · exact absurd h1 hba
          · exact h1
        exact List.Sublist.cons₂ a (List.singleton_sublist.mpr hb')

/-- Pointwise-related lists have equal images under compatible maps. -/
theorem forall₂_map_eq {α β γ : Type} {R : α → β → Prop} {l₁ : List α} {l₂ : List β}
    (h : List.Forall₂ R l₁ l₂) (g : α → γ) (g' : β → γ)
    (hg : ∀ a b, R a b → g a = g' b) : l₁.map g = l₂.map g' := by
  induction h with
  | nil => rfl
  | cons hr _ ih => simp [hg _ _ hr, ih]

/-- Concrete evaluation: the example document parses to the example report. -/
theorem exampleDoc_parse : _parse_semgrep_data exampleDoc = .ok exampleReport := by
  simp [_parse_semgrep_data, exampleDoc, exampleResult, parseFindings, _parse_finding,
        exampleReport, exampleFinding, List.mergeSort, List.splitInTwo, List.splitAt,
        List.splitAt.go, List.merge, findingLE, Finding.severity_order]

/-! ## Claim theorems -/

/-- C1: after all findings are parsed from the input document's results
sequence, the findings list is sorted by the composite key
`(severity_rank, path, start_line)` ascending, where the severity rank maps
ERROR to 0, WARNING to 1, INFO to 2 and anything else (including "UNKNOWN")
to 3; the sort is stable (findings with identical keys keep their parse
order); and three results with severities [INFO, ERROR, WARNING] at the same
path and line come out ordered [ERROR, WARNING, INFO]. -/
theorem parse_sorts_findings_stably (data : RawData) (report : SemgrepReport)
    (h : _parse_semgrep_data data = .ok report) :
    report.findings.Pairwise (fun a b => findingLE a b = true)
    ∧ (∀ fs0, parseFindings (data.results.getD []) = .ok fs0 →
        ∀ a b : Finding, findingKey a = findingKey b →
          [a, b].Sublist fs0 → [a, b].Sublist report.findings)
    ∧ (∀ x : Finding,
        (x.severity = "ERROR" → x.severity_order = 0)
        ∧ (x.severity = "WARNING" → x.severity_order = 1)
        ∧ (x.severity = "INFO" → x.severity_order = 2)
        ∧ (x.severity ≠ "ERROR" → x.severity ≠ "WARNING" → x.severity ≠ "INFO" →
            x.severity_order = 3))
    ∧ (_parse_semgrep_data exampleDoc).map
        (fun r => r.findings.map (fun f => f.severity))
        = .ok ["ERROR", "WARNING", "INFO"] := by
  obtain ⟨fs0, hp, rfl⟩ := parse_semgrep_ok_elim h
  refine ⟨?_, ?_, ?_, ?_⟩
  · exact List.sorted_mergeSort findingLE_trans findingLE_total fs0
  · intro fs0' hp' a b hk hs
    rw [hp] at hp'
    cases hp'
    exact List.pair_sublist_mergeSort findingLE_trans findingLE_total
      (findingLE_of_key_eq hk) hs
  · intro x
    refine ⟨fun h1 => by simp [Finding.severity_order, h1],
            fun h1 => by simp [Finding.severity_order, h1],
            fun h1 => by simp [Finding.severity_order, h1],
            fun h1 h2 h3 => by simp [Finding.severity_order, h1, h2, h3]⟩
  · rw [exampleDoc_parse]
    rfl

/-- Witness for C1: the hypothesis holds at the example document, and the
parsed findings are indeed pairwise ordered by the composite key. -/
theorem parse_sorts_findings_stably_witness :
    exampleReport.findings.Pairwise (fun a b => findingLE a b = true) :=
  (parse_sorts_findings_stably exampleDoc exampleReport exampleDoc_parse).1

/-- C8: the severity rank function maps ERROR, WARNING, INFO, UNKNOWN to
0 < 1 < 2 < 3, any unrecognized severity also ranks 3; the analogous
confidence rank (HIGH 0, MEDIUM 1, LOW 2, else 3) is defined on every
finding; and the findings sort comparison ignores confidence entirely. -/
theorem rank_functions_spec (f g : Finding)
    (hf : f.severity ∉ (["ERROR", "WARNING", "INFO"] : List String))
    (hg : g.confidence ∉ (["HIGH", "MEDIUM", "LOW"] : List String)) :
    ((∀ x : Finding, x.severity = "ERROR" → x.severity_order = 0)
      ∧ (∀ x : Finding, x.severity = "WARNING" → x.severity_order = 1)
      ∧ (∀ x : Finding, x.severity = "INFO" → x.severity_order = 2)
      ∧ (∀ x : Finding, x.severity = "UNKNOWN" → x.severity_order = 3)
      ∧ f.severity_order = 3)
    ∧ ((∀ x : Finding, x.confidence = "HIGH" → x.confidence_order = 0)
      ∧ (∀ x : Finding, x.confidence = "MEDIUM" → x.confidence_order = 1)
      ∧ (∀ x : Finding, x.confidence = "LOW" → x.confidence_order = 2)
      ∧ (∀ x : Finding, x.confidence = "UNKNOWN" → x.confidence_order = 3)
      ∧ g.confidence_order = 3)
    ∧ (∀ a b : Finding, ∀ c1 c2 : String,
        findingLE { a with confidence := c1 } { b with confidence := c2 }
          = findingLE a b) := by
  simp only [List.mem_cons, List.not_mem_nil, or_false, not_or] at hf hg
  refine ⟨⟨?_, ?_, ?_, ?_, ?_⟩, ⟨?_, ?_, ?_, ?_, ?_⟩, ?_⟩
  · intro x h1; simp [Finding.severity_order, h1]
  · intro x h1; simp [Finding.severity_order, h1]
  · intro x h1; simp [Finding.severity_order, h1]
  · intro x h1; simp [Finding.severity_order, h1]
  · simp [Finding.severity_order, hf.1, hf.2.1, hf.2.2]
  · intro x h1; simp [Finding.confidence_order, h1]
  · intro x h1; simp [Finding.confidence_order, h1]
  · intro x h1; simp [Finding.confidence_order, h1]
  · intro x h1; simp [Finding.confidence_order, h1]
  · simp [Finding.confidence_order, hg.1, hg.2.1, hg.2.2]
  · intro a b c1 c2
    rfl

/-- Witness for C8 at a concrete unrecognized severity and confidence. -/
theorem rank_functions_spec_witness :
    (exampleFinding "CRITICAL").severity_order = 3
      ∧ ({ exampleFinding "ERROR" with confidence := "BOGUS" } : Finding).confidence_order
          = 3 :=
  ⟨(rank_functions_spec (exampleFinding "CRITICAL")
      { exampleFinding "ERROR" with confidence := "BOGUS" }
      (by decide) (by decide)).1.2.2.2.2,
   (rank_functions_spec (exampleFinding "CRITICAL")
      { exampleFinding "ERROR" with confidence := "BOGUS" }
      (by decide) (by decide)).2.1.2.2.2.2⟩

/-- Counterexample for C2: two documents whose offending records sit at
different positions (0 and 1) of the results sequence produce the very same
error value `KeyError('check_id')`, so the raised error does not identify the
offending record's position. -/
theorem parse_error_position_not_identified :
    _parse_semgrep_data docBad0 = .error (KeyErr.missing "check_id")
    ∧ _parse_semgrep_data docBad1 = .error (KeyErr.missing "check_id")
    ∧ firstBadIndex docBad0 = some 0
    ∧ firstBadIndex docBad1 = some 1
    ∧ docBad0 ≠ docBad1 :=
  ⟨rfl, rfl, rfl, rfl, by decide⟩

/-- C2 (amended): if some record of the results sequence is missing a
required field, normalization fails with a `KeyError` naming a missing
required key (not the record's position), no `Report` is returned, and no
output payload is produced. -/
theorem parse_missing_required_fails (data : RawData)
    (h : ∃ r ∈ data.results.getD [], resultFails r = true) :
    (∃ k, _parse_semgrep_data data = .error (KeyErr.missing k)
        ∧ k ∈ (["check_id", "path", "start", "line", "end", "message"] : List String))
    ∧ (∀ report, _parse_semgrep_data data ≠ .ok report)
    ∧ (∀ out, generate_report data ≠ .ok out) := by
  obtain ⟨e, he⟩ := parseFindings_error_of_fails h
  obtain ⟨k⟩ := e
  have hper : _parse_semgrep_data data = .error (.missing k) := by
    unfold _parse_semgrep_data
    rw [he]
  obtain ⟨r, hm, hr⟩ := parseFindings_error_mem he
  refine ⟨⟨k, hper, parse_finding_error_key hr⟩, ?_, ?_⟩
  · intro report hok
    rw [hper] at hok
    cases hok
  · intro out hok
    unfold generate_report at hok
    rw [hper] at hok
    cases hok

/-- Witness for C2 (amended) at the concrete document `docBad0`. -/
theorem parse_missing_required_fails_witness :
    ∃ k, _parse_semgrep_data docBad0 = .error (KeyErr.missing k)
      ∧ k ∈ (["check_id", "path", "start", "line", "end", "message"] : List String) :=
  (parse_missing_required_fails docBad0 ⟨badResult, by decide, by decide⟩).1

/-- C3: for every valid input document, the produced report has exactly one
finding per input result, and the required fields (check_id, path,
start_line, end_line, message) of each input record round-trip verbatim into
the serialized findings payload (which is a permutation of the inputs, by
the sort). -/
theorem findings_round_trip (data : RawData) (report : SemgrepReport)
    (h : _parse_semgrep_data data = .ok report) :
    report.findings.length = (data.results.getD []).length
    ∧ (template_data report).findings_json.length = (data.results.getD []).length
    ∧ ((template_data report).findings_json.map (fun j => some (requiredOfJson j))).Perm
        ((data.results.getD []).map requiredOfRaw) := by
  obtain ⟨fs0, hp, rfl⟩ := parse_semgrep_ok_elim h
  have hf2 := parseFindings_ok_forall₂ hp
  have hlen : fs0.length = (data.results.getD []).length := hf2.length_eq.symm
  refine ⟨by simpa using hlen, by simpa [template_data] using hlen, ?_⟩
  have hmapeq : (data.results.getD []).map requiredOfRaw
      = fs0.map (fun f => some (f.check_id, f.path, f.start_line, f.end_line, f.message)) :=
    forall₂_map_eq hf2 _ _ (fun r f hr => parse_finding_ok_required hr)
  simp only [template_data, List.map_map]
  rw [hmapeq]
  exact (List.mergeSort_perm fs0 findingLE).map _

/-- Witness for C3 at the example document. -/
theorem findings_round_trip_witness :
    exampleReport.findings.length = (exampleDoc.results.getD []).length :=
  (findings_round_trip exampleDoc exampleReport exampleDoc_parse).1

/-- A second concrete document exercising version, errors, paths and time. -/
def exampleDoc2 : RawData :=
  { version := some "1.2.3"
    results := some [exampleResult "ERROR"]
    errors := some [{ type := some "ParseError", path := some "b.py", message := some "bad" }]
    paths := some { scanned := some ["a.py", "b.py"] }
    time := some [("total", "1.0")] }

/-- The report parsed from `exampleDoc2`. -/
def exampleReport2 : SemgrepReport :=
  { version := "1.2.3"
    findings := [exampleFinding "ERROR"]
    errors := [{ type := some "ParseError", path := some "b.py", message := some "bad" }]
    scanned_paths := ["a.py", "b.py"]
    total_files_scanned := 2
    scan_time := some [("total", "1.0")] }

/-- Concrete evaluation: the second example document parses to its report. -/
theorem exampleDoc2_parse : _parse_semgrep_data exampleDoc2 = .ok exampleReport2 := by
  simp [_parse_semgrep_data, exampleDoc2, exampleResult, parseFindings, _parse_finding,
        exampleReport2, exampleFinding, List.mergeSort]

/-- C9: the constructed report's version defaults to "unknown", its errors
are the input's errors unmodified (and serialized unchanged and in order in
the output payload), scanned_paths comes from paths.scanned (default empty),
scan_time from time (default empty), and total_files_scanned equals the
length of scanned_paths. -/
theorem report_metadata_fields (data : RawData) (report : SemgrepReport)
    (h : _parse_semgrep_data data = .ok report) :
    report.version = data.version.getD "unknown"
    ∧ report.errors = data.errors.getD []
    ∧ (template_data report).errors_json = data.errors.getD []
    ∧ report.scanned_paths = (data.paths.getD {}).scanned.getD []
    ∧ report.scan_time = some (data.time.getD [])
    ∧ report.total_files_scanned = report.scanned_paths.length := by
  obtain ⟨fs0, hp, rfl⟩ := parse_semgrep_ok_elim h
  exact ⟨rfl, rfl, rfl, rfl, rfl, rfl⟩

/-- Witness for C9 at the second example document. -/
theorem report_metadata_fields_witness :
    exampleReport2.version = exampleDoc2.version.getD "unknown"
    ∧ exampleReport2.errors = exampleDoc2.errors.getD []
    ∧ exampleReport2.total_files_scanned = exampleReport2.scanned_paths.length :=
  ⟨(report_metadata_fields exampleDoc2 exampleReport2 exampleDoc2_parse).1,
   (report_metadata_fields exampleDoc2 exampleReport2 exampleDoc2_parse).2.1,
   (report_metadata_fields exampleDoc2 exampleReport2 exampleDoc2_parse).2.2.2.2.2⟩

/-- C4: each breakdown maps every value to the number of findings carrying it
(0 for unobserved values, so every finding is counted exactly once and
unknown/default values form their own bucket), the breakdown keys appear in
first-seen order, and the severity counts sum to the number of findings. -/
theorem summary_breakdowns_correct (r : SemgrepReport) :
    (∀ v, lookupCount r.summary_stats.severity_breakdown v
        = (r.findings.filter (fun f => f.severity = v)).length)
    ∧ (∀ v, lookupCount r.summary_stats.confidence_breakdown v
        = (r.findings.filter (fun f => f.confidence = v)).length)
    ∧ (∀ v, lookupCount r.summary_stats.category_breakdown v
        = (r.findings.filter (fun f => f.category = v)).length)
    ∧ r.summary_stats.severity_breakdown.map Prod.fst
        = firstSeen (r.findings.map (fun f => f.severity))
    ∧ r.summary_stats.confidence_breakdown.map Prod.fst
        = firstSeen (r.findings.map (fun f => f.confidence))
    ∧ r.summary_stats.category_breakdown.map Prod.fst
        = firstSeen (r.findings.map (fun f => f.category))
    ∧ (r.summary_stats.severity_breakdown.map Prod.snd).sum = r.findings.length := by
  refine ⟨fun v => ?_, fun v => ?_, fun v => ?_, ?_, ?_, ?_, ?_⟩ <;>
    simp [SemgrepReport.summary_stats, countBy_lookup, countBy_keys, countBy_sum]

/-- C5: top_issues has at most 5 entries; it is ordered by descending count;
every entry is a (check_id, occurrence count) pair of the check_id Counter;
every included count is at least every excluded count; and ties keep
first-seen order among tied check_ids. -/
theorem top_issues_correct (r : SemgrepReport) :
    r.summary_stats.top_issues.length ≤ 5
    ∧ r.summary_stats.top_issues.Pairwise (fun p q => q.2 ≤ p.2)
    ∧ (∀ p ∈ r.summary_stats.top_issues,
        p ∈ countBy (fun f => f.check_id) r.findings
        ∧ p.2 = (r.findings.filter (fun f => f.check_id = p.1)).length)
    ∧ (∀ p ∈ r.summary_stats.top_issues,
        ∀ q ∈ countBy (fun f => f.check_id) r.findings,
          q ∉ r.summary_stats.top_issues → q.2 ≤ p.2)
    ∧ (∀ p q : String × Nat, p.2 = q.2 →
        [p, q].Sublist (countBy (fun f => f.check_id) r.findings) →
        q ∈ r.summary_stats.top_issues →
        [p, q].Sublist r.summary_stats.top_issues) := by
  have htop : r.summary_stats.top_issues
      = ((countBy (fun f => f.check_id) r.findings).mergeSort countGE).take 5 := by
    simp [SemgrepReport.summary_stats, most_common]
  have hsorted := List.sorted_mergeSort countGE_trans countGE_total
    (countBy (fun f => f.check_id) r.findings)
  have hperm := List.mergeSort_perm (countBy (fun f => f.check_id) r.findings) countGE
  have hnd : ((countBy (fun f => f.check_id) r.findings).mergeSort countGE).Nodup :=
    hperm.nodup_iff.mpr (countBy_nodup _ _)
  refine ⟨?_, ?_, ?_, ?_, ?_⟩
  · rw [htop]
    exact List.length_take_le 5 _
  · rw [htop]
    refine (hsorted.sublist (List.take_sublist 5 _)).imp ?_
    intro p q hpq
    simpa [countGE] using hpq
  · intro p hp
    rw [htop] at hp
    have hpc : p ∈ countBy (fun f => f.check_id) r.findings :=
      hperm.mem_iff.mp (List.take_subset 5 _ hp)
    refine ⟨hpc, ?_⟩
    have hl : lookupCount (countBy (fun f => f.check_id) r.findings) p.1 = p.2 :=
      lookupCount_of_mem (countBy_keys_nodup _ _) (by simpa using hpc)
    rw [← hl, countBy_lookup]
  · intro p hp q hq hqn
    rw [htop] at hp hqn
    have hqr : q ∈ (countBy (fun f => f.check_id) r.findings).mergeSort countGE :=
      hperm.mem_iff.mpr hq
    have hqd : q ∈ ((countBy (fun f => f.check_id) r.findings).mergeSort countGE).drop 5 := by
      have h2 : q ∈ ((countBy (fun f => f.check_id) r.findings).mergeSort countGE).take 5
          ++ ((countBy (fun f => f.check_id) r.findings).mergeSort countGE).drop 5 := by
        rw [List.take_append_drop]
        exact hqr
      rcases List.mem_append.mp h2 with h1 | h1
      · exact absurd h1 hqn
      · exact h1
    have := pairwise_take_drop hsorted 5 hp hqd
    simpa [countGE] using this
  · intro p q hpq hsub hqt
    rw [htop] at hqt ⊢
    have hle : countGE p q = true := by
      simp [countGE, hpq]
    have hrank : [p, q].Sublist ((countBy (fun f => f.check_id) r.findings).mergeSort countGE) :=
      List.pair_sublist_mergeSort countGE_trans countGE_total hle hsub
    exact pair_sublist_take hrank hnd hqt

/-- C6: files_affected counts the distinct path values among the findings, so
it never exceeds the number of findings, with equality exactly when the
findings' paths are pairwise distinct. -/
theorem files_affected_distinct_paths (r : SemgrepReport) :
    r.summary_stats.files_affected = (r.findings.map (fun f => f.path)).dedup.length
    ∧ r.summary_stats.files_affected ≤ r.findings.length
    ∧ (r.summary_stats.files_affected = r.findings.length
        ↔ r.findings.Pairwise (fun a b => a.path ≠ b.path)) := by
  have hfa : r.summary_stats.files_affected
      = ((r.findings.map (fun f => f.path)).toFinset).card := by
    simp [SemgrepReport.summary_stats]
  have hlen : (r.findings.map (fun f => f.path)).length = r.findings.length := by
    simp
  refine ⟨?_, ?_, ?_⟩
  · rw [hfa, List.card_toFinset]
  · rw [hfa]
    exact le_trans (List.toFinset_card_le _) (le_of_eq hlen)
  · rw [hfa, List.card_toFinset]
    constructor
    · intro h
      have heq : (r.findings.map (fun f => f.path)).dedup = r.findings.map (fun f => f.path) :=
        (List.dedup_sublist _).eq_of_length (by rw [h, hlen])
      exact List.pairwise_map.mp (List.dedup_eq_self.mp heq)
    · intro h
      have hnd : (r.findings.map (fun f => f.path)).Nodup := List.pairwise_map.mpr h
      rw [List.dedup_eq_self.mpr hnd, hlen]

/-- C7: a result whose extra.metadata key is absent parses successfully with
confidence "UNKNOWN", category "unknown", empty technology/cwe/owasp/
references and no shortlink (whatever the other extra keys hold); and with
the optional extra keys absent too, severity defaults to "UNKNOWN" and lines
and fingerprint to none, never a sentinel string. -/
theorem parse_finding_metadata_defaults (c p msg : String) (sl el : Int)
    (sev ln fp : Option String) :
    _parse_finding
        { check_id := some c, path := some p, start := some { line := some sl },
          end_ := some { line := some el },
          extra := some { message := some msg, severity := sev, lines := ln,
                          fingerprint := fp, metadata := none } }
      = .ok { check_id := c, path := p, start_line := sl, end_line := el,
              severity := sev.getD "UNKNOWN", confidence := "UNKNOWN",
              message := msg, category := "unknown", technology := [], cwe := [],
              owasp := [], references := [], shortlink := none, lines := ln,
              fingerprint := fp }
    ∧ _parse_finding
        { check_id := some c, path := some p, start := some { line := some sl },
          end_ := some { line := some el },
          extra := some { message := some msg } }
      = .ok { check_id := c, path := p, start_line := sl, end_line := el,
              severity := "UNKNOWN", confidence := "UNKNOWN", message := msg,
              category := "unknown", technology := [], cwe := [], owasp := [],
              references := [], shortlink := none, lines := none,
              fingerprint := none } :=
  ⟨rfl, rfl⟩

/-- C10: computing summary statistics leaves the report unchanged: the
state-passing evaluation returns the same statistics and a report whose
findings, errors, scanned paths, file count, version and scan time all equal
their values before the computation. -/
theorem summary_stats_frame (r : SemgrepReport) :
    (summary_stats_run r).1 = r.summary_stats
    ∧ (summary_stats_run r).2.findings = r.findings
    ∧ (summary_stats_run r).2.errors = r.errors
    ∧ (summary_stats_run r).2.scanned_paths = r.scanned_paths
    ∧ (summary_stats_run r).2.total_files_scanned = r.total_files_scanned
    ∧ (summary_stats_run r).2.version = r.version
    ∧ (summary_stats_run r).2.scan_time = r.scan_time :=
  ⟨rfl, rfl, rfl, rfl, rfl, rfl, rfl⟩
